import Mathlib

/-!
Shallow embedding of the chess-session core of `src/index.js`
(telegram-chess-bot).  JavaScript numbers are modelled exactly: wall-clock
times in milliseconds as `ℤ`, the seconds arithmetic of the pacing governor
(which divides by 1000) as `ℚ`, and counters as `ℕ`.  Fields that some code
paths leave absent (`moveNumber`, `moveDelay`, `roundEndTime`,
`lastMoveTime`) are modelled as their JavaScript read-back defaults
(`x || 0` reads an absent counter as `0`; falsy checks read an absent
object as disabled), or as `Option` where the code distinguishes
`null`/absent from a value.  The chess.js engine is external to the
repository; it is held behind the `Oracle` interface exactly as the
sessions use it.
-/

namespace ChessBot

/-- Side colours, as chess.js reports them (`'w'` / `'b'`). -/
inductive Color where
  | white
  | black
deriving DecidableEq, Repr

/-- The `moveDelay` configuration object stored in a session
(`{ enabled, baseDelay, increment }`, seconds). -/
structure MoveDelay where
  enabled : Bool
  baseDelay : ℚ
  increment : ℚ
deriving DecidableEq, Repr

/-- The verbose move object chess.js returns from a successful
`game.move(...)` call, as far as the handlers read it. -/
structure MoveApplied where
  color : Color
  fromSq : String
  toSq : String
  san : String
  captured : Option String
  promotion : Option String
  flags : String
deriving DecidableEq, Repr

/-- The chess.js engine as the handlers use it: `isGameOver()`, `turn()`,
and `move(noteStr)` which either rejects (null return or thrown error,
both collapsed to `none`, with the position untouched) or returns the
verbose move object together with the mutated position. -/
structure Oracle (Pos : Type) where
  isGameOver : Pos → Bool
  turn : Pos → Color
  move : Pos → String → Option (MoveApplied × Pos)

/-- One `moveHistory` entry as pushed by the move handlers. -/
structure HistEntry where
  number : ℕ
  player : String
  move : String
  moveSan : String
  fromSq : String
  toSq : String
  captured : Option String
  promotion : Option String
  flags : String
  timestamp : ℤ
deriving DecidableEq, Repr

/-- The `lastMove` record (`{ player, move, timestamp }`). -/
structure LastMove where
  player : String
  move : String
  timestamp : ℤ
deriving DecidableEq, Repr

/-- A `gameState` value from the `activeGames` map.  `capturedWhite` /
`capturedBlack` are `capturedPieces.white` / `capturedPieces.black`;
likewise for the per-team resign and draw vote lists. -/
structure GameSession (Pos : Type) where
  game : Pos
  lastMove : Option LastMove
  players : List String
  whiteTeam : List String
  blackTeam : List String
  capturedWhite : List String
  capturedBlack : List String
  resignVotesWhite : List String
  resignVotesBlack : List String
  drawVotesWhite : List String
  drawVotesBlack : List String
  moveHistory : List HistEntry
  channelId : Option String
  moveDelay : Option MoveDelay
  moveNumber : ℕ
  lastMoveTime : Option ℤ
  roundEndTime : Option ℤ
deriving DecidableEq, Repr

/-- `gameState.moveDelay.baseDelay + gameState.moveDelay.increment *
(roundNumber - 1)` with `roundNumber = Math.floor(moveNumber / 2)`,
the expression both pacing helpers compute. -/
def requiredDelay (d : MoveDelay) (moveNumber : ℕ) : ℚ :=
  d.baseDelay + d.increment * (((moveNumber / 2 : ℕ) : ℤ) - 1)

/-- `canMakeMove(gameState)` (src/index.js lines 110-137); `Date.now()` is
passed in as `now`. -/
def canMakeMove {Pos : Type} (now : ℤ) (s : GameSession Pos) : Bool :=
  match s.moveDelay with
  | none => true
  | some d =>
    if !d.enabled then
      true
    else if s.moveNumber % 2 == 1 then
      true
    else
      match s.roundEndTime with
      | none => true
      | some ret =>
        let timeSinceRoundEnd : ℚ := ((now - ret : ℤ) : ℚ) / 1000
        decide (timeSinceRoundEnd ≥ requiredDelay d s.moveNumber)

/-- `getRemainingDelay(gameState)` (src/index.js lines 140-164):
`Math.ceil(Math.max(0, requiredDelay - timeSinceRoundEnd))`. -/
def getRemainingDelay {Pos : Type} (now : ℤ) (s : GameSession Pos) : ℤ :=
  match s.moveDelay with
  | none => 0
  | some d =>
    if !d.enabled then
      0
    else if s.moveNumber % 2 == 1 then
      0
    else
      match s.roundEndTime with
      | none => 0
      | some ret =>
        let timeSinceRoundEnd : ℚ := ((now - ret : ℤ) : ℚ) / 1000
        ⌈max 0 (requiredDelay d s.moveNumber - timeSinceRoundEnd)⌉

/-- The disabled test `!gameState.moveDelay || !gameState.moveDelay.enabled`
shared by both pacing helpers. -/
def pacingDisabled {Pos : Type} (s : GameSession Pos) : Bool :=
  match s.moveDelay with
  | none => true
  | some d => !d.enabled

/-- The `pieceSymbols` lookup table; `pieceSymbols[x]` for a key outside
the table is `undefined`, modelled as `none`. -/
def pieceSymbols (c : String) : Option String :=
  if c = "p" then some "♟" else if c = "n" then some "♞"
  else if c = "b" then some "♝" else if c = "r" then some "♜"
  else if c = "q" then some "♛" else if c = "k" then some "♚"
  else if c = "P" then some "♙" else if c = "N" then some "♘"
  else if c = "B" then some "♗" else if c = "R" then some "♖"
  else if c = "Q" then some "♕" else if c = "K" then some "♔"
  else none

/-- The history entry both move handlers push: fields built from the
chess.js verbose move, with `number = moveHistory.length + 1` computed
against the history before the push. -/
def mkHistEntry (prevLen : ℕ) (username : String) (m : MoveApplied)
    (now : ℤ) : HistEntry :=
  { number := prevLen + 1
    player := username
    move := m.fromSq ++ " → " ++ m.toSq
    moveSan := m.san
    fromSq := m.fromSq
    toSq := m.toSq
    captured := match m.captured with
      | some c => pieceSymbols c
      | none => none
    promotion := m.promotion
    flags := m.flags
    timestamp := now }

/-- `capturedPieces[capturedSide].push(move.captured)`: the capturing side
is `move.color`, and the piece lands on the opposite side's list. -/
def pushCaptured {Pos : Type} (s : GameSession Pos) (m : MoveApplied) :
    GameSession Pos :=
  match m.captured with
  | none => s
  | some c =>
    if m.color == Color.white then
      { s with capturedBlack := s.capturedBlack ++ [c] }
    else
      { s with capturedWhite := s.capturedWhite ++ [c] }

/-- Result variants of a move submission, mirroring the distinct handler
exits: the "Game is over." reply, the "must join a team" reply, the
"Timer is still counting down" reply (carrying `getRemainingDelay`), the
"you're on the other team" reply, the "Invalid move" / thrown-error
replies (collapsed, as the spec allows), and success. -/
inductive MoveResult where
  | sessionTerminal
  | notOnAnyTeam
  | pacingBlocked (remaining : ℤ)
  | wrongTeam
  | illegalMove
  | applied (m : MoveApplied)
deriving DecidableEq, Repr

/-- `true` exactly on the success variant. -/
def MoveResult.isApplied : MoveResult → Bool
  | .applied _ => true
  | _ => false

/-- The state mutations of the `'move_'` callback branch after
`targetGame.move` succeeds (src/index.js lines 2030-2070): record
`lastMove`, set `lastMoveTime`, increment `moveNumber`, set
`roundEndTime` when the new `moveNumber` is even, push any captured
piece, and append the history entry. -/
def applyMoveState {Pos : Type} (now : ℤ) (s : GameSession Pos)
    (username moveNotation : String) (m : MoveApplied) (pos2 : Pos) :
    GameSession Pos :=
  let newMoveNumber := s.moveNumber + 1
  let s1 : GameSession Pos :=
    { s with
      game := pos2
      lastMove := some { player := username, move := moveNotation, timestamp := now }
      lastMoveTime := some now
      moveNumber := newMoveNumber }
  let s2 := if newMoveNumber % 2 == 0 then { s1 with roundEndTime := some now } else s1
  let s3 := pushCaptured s2 m
  { s3 with moveHistory := s3.moveHistory ++ [mkHistEntry s3.moveHistory.length username m now] }

/-- The `'move_'` callback branch (src/index.js lines 1967-2070), at the
session level: every validation exit returns the session untouched; on a
successful `targetGame.move` the handler applies `applyMoveState`. -/
def submitMove {Pos : Type} (O : Oracle Pos) (now : ℤ)
    (s : GameSession Pos) (username moveNotation : String) :
    MoveResult × GameSession Pos :=
  if O.isGameOver s.game then
    (.sessionTerminal, s)
  else if !(s.whiteTeam.contains username || s.blackTeam.contains username) then
    (.notOnAnyTeam, s)
  else if !canMakeMove now s then
    (.pacingBlocked (getRemainingDelay now s), s)
  else
    let currentSide := if O.turn s.game == Color.white then Color.white else Color.black
    let team := if currentSide == Color.white then s.whiteTeam else s.blackTeam
    if !team.contains username then
      (.wrongTeam, s)
    else
      match O.move s.game moveNotation with
      | none => (.illegalMove, s)
      | some (m, pos2) => (.applied m, applyMoveState now s username moveNotation m pos2)

/-- The state mutations of the `/move` command handler after
`game.move` succeeds (src/index.js lines 2457-2487): record `lastMove`,
push any captured piece and append the history entry — but, unlike the
callback branch, touch neither `moveNumber`, `lastMoveTime` nor
`roundEndTime`. -/
def applyMoveTextState {Pos : Type} (now : ℤ) (s : GameSession Pos)
    (username moveNotation : String) (m : MoveApplied) (pos2 : Pos) :
    GameSession Pos :=
  let s1 : GameSession Pos :=
    { s with
      game := pos2
      lastMove := some { player := username, move := moveNotation, timestamp := now } }
  let s2 := pushCaptured s1 m
  { s2 with moveHistory := s2.moveHistory ++ [mkHistEntry s2.moveHistory.length username m now] }

/-- The `/move` text-command handler (src/index.js lines 2417-2487), at
the session level.  It performs the game-over, team-membership and
turn-ownership checks (no pacing check) and, on success, applies
`applyMoveTextState`. -/
def submitMoveText {Pos : Type} (O : Oracle Pos) (now : ℤ)
    (s : GameSession Pos) (username moveNotation : String) :
    MoveResult × GameSession Pos :=
  if O.isGameOver s.game then
    (.sessionTerminal, s)
  else if !(s.whiteTeam.contains username || s.blackTeam.contains username) then
    (.notOnAnyTeam, s)
  else
    let currentSide := if O.turn s.game == Color.white then Color.white else Color.black
    let team := if currentSide == Color.white then s.whiteTeam else s.blackTeam
    if !team.contains username then
      (.wrongTeam, s)
    else
      match O.move s.game moveNotation with
      | none => (.illegalMove, s)
      | some (m, pos2) => (.applied m, applyMoveTextState now s username moveNotation m pos2)

/-- The `players` bookkeeping shared by every join site:
`if (!gameState.players.includes(username)) gameState.players.push(username)`. -/
def addPlayer {Pos : Type} (s : GameSession Pos) (username : String) :
    GameSession Pos :=
  if s.players.contains username then s
  else { s with players := s.players ++ [username] }

/-- The `'join_white'` callback branch (src/index.js lines 1680-1703), at
the session level: filter the username out of the black team, append it
to the white team if absent, append it to `players` if absent. -/
def joinWhite {Pos : Type} (s : GameSession Pos) (username : String) :
    GameSession Pos :=
  let s1 := { s with blackTeam := s.blackTeam.filter (fun p => p ≠ username) }
  let s2 :=
    if s1.whiteTeam.contains username then s1
    else { s1 with whiteTeam := s1.whiteTeam ++ [username] }
  addPlayer s2 username

/-- The `'join_black'` callback branch (src/index.js lines 1706-1727), at
the session level: filter the username out of the white team, then push
it onto the black team *unconditionally* (line 1717 has no
`includes` guard, unlike every sibling join site and unlike its own
preceding comment), then append it to `players` if absent. -/
def joinBlack {Pos : Type} (s : GameSession Pos) (username : String) :
    GameSession Pos :=
  let s1 := { s with whiteTeam := s.whiteTeam.filter (fun p => p ≠ username) }
  let s2 := { s1 with blackTeam := s1.blackTeam ++ [username] }
  addPlayer s2 username

/-- `handleGameJoin(channelId, chatId, username, team)` (src/index.js
lines 1024-1088), at the session level: if the username is already on
either team the handler only refreshes and returns; otherwise it filters
the username out of the other team, appends it to the chosen team if
absent, and appends it to `players` if absent.  The
`'join_channel_white_'` / `'join_channel_black_'` branches (lines
1536-1677) perform the same team mutation. -/
def handleGameJoin {Pos : Type} (s : GameSession Pos) (username : String)
    (team : Color) : GameSession Pos :=
  if s.whiteTeam.contains username || s.blackTeam.contains username then
    s
  else
    let s1 :=
      match team with
      | Color.white =>
        let t := { s with blackTeam := s.blackTeam.filter (fun p => p ≠ username) }
        if t.whiteTeam.contains username then t
        else { t with whiteTeam := t.whiteTeam ++ [username] }
      | Color.black =>
        let t := { s with whiteTeam := s.whiteTeam.filter (fun p => p ≠ username) }
        if t.blackTeam.contains username then t
        else { t with blackTeam := t.blackTeam ++ [username] }
    addPlayer s1 username

/-- `Math.ceil(teamPlayers / 2)` for a non-negative integer count. -/
def jsCeilHalf (n : ℕ) : ℕ := (n + 1) / 2

/-- Result variants of the `'resign'` callback branch: the "must join a
team" reply, the "already voted" reply, a recorded vote short of
majority, and a majority reached (game ended). -/
inductive ResignOutcome where
  | notOnTeam
  | alreadyVoted
  | voteRecorded (team : Color) (voteCount majorityNeeded : ℕ)
  | resigned (team : Color) (voteCount teamPlayers : ℕ)
deriving DecidableEq, Repr

/-- `true` exactly on the majority-reached variant. -/
def ResignOutcome.isResigned : ResignOutcome → Bool
  | .resigned _ _ _ => true
  | _ => false

/-- The `'resign'` callback branch (src/index.js lines 1884-1927), at the
session level: the white team is checked first; a non-member of both
teams is rejected; a repeated vote changes nothing; otherwise the vote is
pushed, `majorityNeeded = Math.ceil(teamPlayers / 2)` is computed from
the team size at vote time, and the game ends iff
`voteCount >= majorityNeeded`. -/
def voteResign {Pos : Type} (s : GameSession Pos) (username : String) :
    ResignOutcome × GameSession Pos :=
  if s.whiteTeam.contains username then
    if s.resignVotesWhite.contains username then
      (.alreadyVoted, s)
    else
      let votes := s.resignVotesWhite ++ [username]
      let s1 := { s with resignVotesWhite := votes }
      let teamPlayers := s.whiteTeam.length
      let voteCount := votes.length
      let majorityNeeded := jsCeilHalf teamPlayers
      if voteCount ≥ majorityNeeded then
        (.resigned Color.white voteCount teamPlayers, s1)
      else
        (.voteRecorded Color.white voteCount majorityNeeded, s1)
  else if s.blackTeam.contains username then
    if s.resignVotesBlack.contains username then
      (.alreadyVoted, s)
    else
      let votes := s.resignVotesBlack ++ [username]
      let s1 := { s with resignVotesBlack := votes }
      let teamPlayers := s.blackTeam.length
      let voteCount := votes.length
      let majorityNeeded := jsCeilHalf teamPlayers
      if voteCount ≥ majorityNeeded then
        (.resigned Color.black voteCount teamPlayers, s1)
      else
        (.voteRecorded Color.black voteCount majorityNeeded, s1)
  else
    (.notOnTeam, s)

/-- A JavaScript `Map` key as the handlers use them: `activeGames` is
keyed sometimes by the raw numeric `chatId` and sometimes by a string
(`String(chatId)`, `'default'`, or a channel id); a JS `Map` never
identifies the number `123` with the string `"123"`. -/
inductive GKey where
  | num (n : ℤ)
  | str (s : String)
deriving DecidableEq, Repr

/-- `map.get(k)` (`none` for a missing key). -/
def mapGet {α : Type} (reg : List (GKey × α)) (k : GKey) : Option α :=
  (reg.find? (fun p => p.1 == k)).map Prod.snd

/-- `map.has(k)`. -/
def mapHas {α : Type} (reg : List (GKey × α)) (k : GKey) : Bool :=
  (mapGet reg k).isSome

/-- `map.set(k, v)`: replace in place if the key is present, else append. -/
def mapSet {α : Type} (reg : List (GKey × α)) (k : GKey) (v : α) :
    List (GKey × α) :=
  if mapHas reg k then
    reg.map (fun p => if p.1 == k then (k, v) else p)
  else
    reg ++ [(k, v)]

/-- `map.delete(k)`. -/
def mapDelete {α : Type} (reg : List (GKey × α)) (k : GKey) :
    List (GKey × α) :=
  reg.filter (fun p => p.1 ≠ k)

/-- The session literal built by the `'start_newgame'` callback branch
(src/index.js lines 1121-1141): empty teams and ledgers, pacing enabled
at 900/900, `moveNumber = 0`, `roundEndTime = null`. -/
def initSessionCallback {Pos : Type} (newPos : Pos) (channelId : Option String) :
    GameSession Pos :=
  { game := newPos
    lastMove := none
    players := []
    whiteTeam := []
    blackTeam := []
    capturedWhite := []
    capturedBlack := []
    resignVotesWhite := []
    resignVotesBlack := []
    drawVotesWhite := []
    drawVotesBlack := []
    moveHistory := []
    channelId := channelId
    moveDelay := some { enabled := true, baseDelay := 900, increment := 900 }
    moveNumber := 0
    lastMoveTime := none
    roundEndTime := none }

/-- The session literal built by the `/newgame` command handler
(src/index.js lines 2335-2347).  That literal carries no `moveDelay`,
`moveNumber`, `lastMoveTime` or `roundEndTime` property at all; every
read of those fields goes through `|| 0` or a falsy check, so the absent
properties are modelled as `none` / `0`. -/
def initSessionNewgameCmd {Pos : Type} (newPos : Pos) (channelId : Option String) :
    GameSession Pos :=
  { game := newPos
    lastMove := none
    players := []
    whiteTeam := []
    blackTeam := []
    capturedWhite := []
    capturedBlack := []
    resignVotesWhite := []
    resignVotesBlack := []
    drawVotesWhite := []
    drawVotesBlack := []
    moveHistory := []
    channelId := channelId
    moveDelay := none
    moveNumber := 0
    lastMoveTime := none
    roundEndTime := none }

/-- The `'start_newgame'` callback branch (src/index.js lines 1108-1150)
at the registry level.  The existence check is
`activeGames.has(chatId)` against the *numeric* chat id, while the new
session is stored under `String(chatId)` for a channel and under
`'default'` for a private chat. -/
def startNewgameCallback {Pos : Type} (newPos : Pos)
    (reg : List (GKey × GameSession Pos)) (chatId : ℤ) (isChannel : Bool) :
    List (GKey × GameSession Pos) :=
  if mapHas reg (GKey.num chatId) then
    reg
  else
    let gameKey := if isChannel then GKey.str (toString chatId) else GKey.str "default"
    mapSet reg gameKey
      (initSessionCallback newPos (if isChannel then some (toString chatId) else none))

/-- `startGameInChannel(channelId, username)` (src/index.js lines
2157-2192) at the registry level: key and store both use
`String(channelId)`; an existing session is left untouched.  The stored
literal matches the callback init (pacing enabled at 900/900) plus an
empty `joinedUsers` list, which is not modelled. -/
def startGameInChannel {Pos : Type} (newPos : Pos)
    (reg : List (GKey × GameSession Pos)) (channelId : ℤ) :
    List (GKey × GameSession Pos) :=
  let gameKey := GKey.str (toString channelId)
  if mapHas reg gameKey then
    reg
  else
    mapSet reg gameKey (initSessionCallback newPos (some (toString channelId)))

/-- The `/newgame` command handler (src/index.js lines 2319-2365) at the
registry level: key and store both use `String(chatId)`; when a session
already exists the handler replies and leaves the registry unchanged; in
a channel the freshly stored session is deleted again and
`startGameInChannel` recreates it under the same key. -/
def newgameCommand {Pos : Type} (newPos : Pos)
    (reg : List (GKey × GameSession Pos)) (chatId : ℤ) (isChannel : Bool) :
    List (GKey × GameSession Pos) :=
  let gameKey := GKey.str (toString chatId)
  if mapHas reg gameKey then
    reg
  else
    let reg1 := mapSet reg gameKey
      (initSessionNewgameCmd newPos (if isChannel then some (toString chatId) else none))
    if isChannel then
      startGameInChannel newPos (mapDelete reg1 gameKey) chatId
    else
      reg1

/-- `deleteGame(db, channelId)` from the `./database` module
(src/unnamed/part_000, database.js): runs
`DELETE FROM games WHERE channelId = ?` against the `games` table, whose
`channelId` column is declared `TEXT UNIQUE` — a key-value store by
channel id, modelled as an association list from which every row with
the given `channelId` is removed. -/
def deleteGame {α : Type} (db : List (String × α)) (channelId : String) :
    List (String × α) :=
  db.filter (fun p => p.1 ≠ channelId)

/-- The `'resign'` callback branch at the registry level (src/index.js
lines 1863-1928): the session is looked up under `gameKey`, mutated in
place by the vote, and — exactly when the majority is reached — removed
from `activeGames`, with the persisted copy deleted when the session is
channel-bound. -/
def resignCallback {Pos α : Type} (reg : List (GKey × GameSession Pos))
    (db : List (String × α)) (gameKey : GKey) (username : String) :
    List (GKey × GameSession Pos) × List (String × α) :=
  match mapGet reg gameKey with
  | none => (reg, db)
  | some s =>
    let r := voteResign s username
    if r.1.isResigned then
      (mapDelete reg gameKey,
        match s.channelId with
        | some cid => deleteGame db cid
        | none => db)
    else
      (mapSet reg gameKey r.2, db)

/-- The two teams never share an actor. -/
def disjointTeams {Pos : Type} (s : GameSession Pos) : Prop :=
  ∀ x ∈ s.whiteTeam, x ∉ s.blackTeam

/-- Concrete pacing configuration used by every game the bot creates
(15 minutes base, +15 minutes per round). -/
def delay900 : MoveDelay := { enabled := true, baseDelay := 900, increment := 900 }

/-- A concrete verbose move object for exercising the handlers. -/
def mPawn : MoveApplied :=
  { color := Color.white, fromSq := "e2", toSq := "e4", san := "e4",
    captured := none, promotion := none, flags := "b" }

/-- A concrete engine over the trivial position type: game not over,
white to move, every notation accepted as `mPawn`. -/
def oracleAccept : Oracle Unit :=
  { isGameOver := fun _ => false
    turn := fun _ => Color.white
    move := fun _ _ => some (mPawn, ()) }

/-- A concrete engine reporting the position game-over. -/
def oracleOver : Oracle Unit :=
  { isGameOver := fun _ => true
    turn := fun _ => Color.white
    move := fun _ _ => none }

/-- A concrete engine rejecting every notation. -/
def oracleReject : Oracle Unit :=
  { isGameOver := fun _ => false
    turn := fun _ => Color.white
    move := fun _ _ => none }

/-- A fresh callback-created session over the trivial position type. -/
def baseSession : GameSession Unit := initSessionCallback () none

/-- A session one full round in: alice on white, bob on black,
`moveNumber = 2`, round ended at time 0. -/
def pacedSession : GameSession Unit :=
  { baseSession with
    players := ["alice", "bob"]
    whiteTeam := ["alice"]
    blackTeam := ["bob"]
    moveNumber := 2
    roundEndTime := some 0 }

/-- A session whose white team has three members, for the resignation
majority scenario. -/
def trioSession : GameSession Unit :=
  { baseSession with
    players := ["a", "b", "c"]
    whiteTeam := ["a", "b", "c"] }

/-- A session with one actor on each team and no moves played. -/
def duoSession : GameSession Unit :=
  { baseSession with
    players := ["a", "d"]
    whiteTeam := ["a"]
    blackTeam := ["d"] }

/-- A registry holding one session under the string key `'default'`, the
key a private-chat `'start_newgame'` stores under. -/
def demoRegistry : List (GKey × GameSession Unit) :=
  [(GKey.str "default",
    { initSessionCallback () none with players := ["alice"], whiteTeam := ["alice"] })]

/-- A registry holding one session under the string key `'123'`, the key
`/newgame` and `startGameInChannel` both check and store under for chat
id 123. -/
def demoRegistry123 : List (GKey × GameSession Unit) :=
  [(GKey.str "123",
    { initSessionCallback () (some "123") with players := ["bob"], blackTeam := ["bob"] })]

theorem pushCaptured_moveHistory {Pos : Type} (s : GameSession Pos)
    (m : MoveApplied) : (pushCaptured s m).moveHistory = s.moveHistory := by
  unfold pushCaptured
  rcases m.captured with _ | c
  · rfl
  · dsimp only
    split <;> rfl

theorem pushCaptured_moveNumber {Pos : Type} (s : GameSession Pos)
    (m : MoveApplied) : (pushCaptured s m).moveNumber = s.moveNumber := by
  unfold pushCaptured
  rcases m.captured with _ | c
  · rfl
  · dsimp only
    split <;> rfl

theorem pushCaptured_whiteTeam {Pos : Type} (s : GameSession Pos)
    (m : MoveApplied) : (pushCaptured s m).whiteTeam = s.whiteTeam := by
  unfold pushCaptured
  rcases m.captured with _ | c
  · rfl
  · dsimp only
    split <;> rfl

theorem pushCaptured_blackTeam {Pos : Type} (s : GameSession Pos)
    (m : MoveApplied) : (pushCaptured s m).blackTeam = s.blackTeam := by
  unfold pushCaptured
  rcases m.captured with _ | c
  · rfl
  · dsimp only
    split <;> rfl

theorem applyMoveState_fields {Pos : Type} (now : ℤ) (s : GameSession Pos)
    (u mv : String) (m : MoveApplied) (pos2 : Pos) :
    (applyMoveState now s u mv m pos2).moveHistory.length = s.moveHistory.length + 1 ∧
    (applyMoveState now s u mv m pos2).moveNumber = s.moveNumber + 1 ∧
    (applyMoveState now s u mv m pos2).whiteTeam = s.whiteTeam ∧
    (applyMoveState now s u mv m pos2).blackTeam = s.blackTeam := by
  unfold applyMoveState
  refine ⟨?_, ?_, ?_, ?_⟩ <;>
    simp only [pushCaptured_moveHistory, pushCaptured_moveNumber,
      pushCaptured_whiteTeam, pushCaptured_blackTeam,
      List.length_append, List.length_singleton] <;>
    split <;> rfl

theorem applyMoveTextState_fields {Pos : Type} (now : ℤ) (s : GameSession Pos)
    (u mv : String) (m : MoveApplied) (pos2 : Pos) :
    (applyMoveTextState now s u mv m pos2).moveHistory.length = s.moveHistory.length + 1 ∧
    (applyMoveTextState now s u mv m pos2).moveNumber = s.moveNumber ∧
    (applyMoveTextState now s u mv m pos2).whiteTeam = s.whiteTeam ∧
    (applyMoveTextState now s u mv m pos2).blackTeam = s.blackTeam := by
  unfold applyMoveTextState
  refine ⟨?_, ?_, ?_, ?_⟩ <;>
    simp only [pushCaptured_moveHistory, pushCaptured_moveNumber,
      pushCaptured_whiteTeam, pushCaptured_blackTeam,
      List.length_append, List.length_singleton]

theorem submitMove_eq_gameOver {Pos : Type} (O : Oracle Pos) (now : ℤ)
    (s : GameSession Pos) (u mv : String)
    (hgo : O.isGameOver s.game = true) :
    submitMove O now s u mv = (.sessionTerminal, s) := by
  simp [submitMove, hgo]

theorem submitMove_eq_notOnTeam {Pos : Type} (O : Oracle Pos) (now : ℤ)
    (s : GameSession Pos) (u mv : String)
    (hgo : O.isGameOver s.game = false)
    (hw : s.whiteTeam.contains u = false)
    (hb : s.blackTeam.contains u = false) :
    submitMove O now s u mv = (.notOnAnyTeam, s) := by
  have hw' : u ∉ s.whiteTeam := by simpa using hw
  have hb' : u ∉ s.blackTeam := by simpa using hb
  simp [submitMove, hgo, hw', hb']

theorem submitMove_eq_pacing {Pos : Type} (O : Oracle Pos) (now : ℤ)
    (s : GameSession Pos) (u mv : String)
    (hgo : O.isGameOver s.game = false)
    (hor : (s.whiteTeam.contains u || s.blackTeam.contains u) = true)
    (hcan : canMakeMove now s = false) :
    submitMove O now s u mv = (.pacingBlocked (getRemainingDelay now s), s) := by
  have hor' : u ∈ s.whiteTeam ∨ u ∈ s.blackTeam := by simpa using hor
  simp only [submitMove, hgo, hcan]
  simp
  tauto

theorem submitMove_eq_wrongTeam {Pos : Type} (O : Oracle Pos) (now : ℤ)
    (s : GameSession Pos) (u mv : String)
    (hgo : O.isGameOver s.game = false)
    (hor : (s.whiteTeam.contains u || s.blackTeam.contains u) = true)
    (hcan : canMakeMove now s = true)
    (hteam : (if O.turn s.game == Color.white then s.whiteTeam
      else s.blackTeam).contains u = false) :
    submitMove O now s u mv = (.wrongTeam, s) := by
  have hor' : u ∈ s.whiteTeam ∨ u ∈ s.blackTeam := by simpa using hor
  cases hturn : O.turn s.game <;> rw [hturn] at hteam <;> simp at hteam <;>
    simp [submitMove, hgo, hcan, hturn, hteam] <;> tauto

theorem submitMove_eq_illegal {Pos : Type} (O : Oracle Pos) (now : ℤ)
    (s : GameSession Pos) (u mv : String)
    (hgo : O.isGameOver s.game = false)
    (hor : (s.whiteTeam.contains u || s.blackTeam.contains u) = true)
    (hcan : canMakeMove now s = true)
    (hteam : (if O.turn s.game == Color.white then s.whiteTeam
      else s.blackTeam).contains u = true)
    (hmv : O.move s.game mv = none) :
    submitMove O now s u mv = (.illegalMove, s) := by
  have hor' : u ∈ s.whiteTeam ∨ u ∈ s.blackTeam := by simpa using hor
  cases hturn : O.turn s.game <;> rw [hturn] at hteam <;> simp at hteam <;>
    simp [submitMove, hgo, hcan, hturn, hteam, hmv] <;> tauto

theorem submitMove_eq_applied {Pos : Type} (O : Oracle Pos) (now : ℤ)
    (s : GameSession Pos) (u mv : String) (m : MoveApplied) (pos2 : Pos)
    (hgo : O.isGameOver s.game = false)
    (hor : (s.whiteTeam.contains u || s.blackTeam.contains u) = true)
    (hcan : canMakeMove now s = true)
    (hteam : (if O.turn s.game == Color.white then s.whiteTeam
      else s.blackTeam).contains u = true)
    (hmv : O.move s.game mv = some (m, pos2)) :
    submitMove O now s u mv = (.applied m, applyMoveState now s u mv m pos2) := by
  have hor' : u ∈ s.whiteTeam ∨ u ∈ s.blackTeam := by simpa using hor
  cases hturn : O.turn s.game <;> rw [hturn] at hteam <;> simp at hteam <;>
    simp [submitMove, hgo, hcan, hturn, hteam, hmv] <;> tauto

theorem submitMove_char {Pos : Type} (O : Oracle Pos) (now : ℤ)
    (s : GameSession Pos) (u mv : String) :
    ((submitMove O now s u mv).1.isApplied = false ∧
      (submitMove O now s u mv).2 = s) ∨
    (∃ m pos2, O.move s.game mv = some (m, pos2) ∧
      submitMove O now s u mv =
        (.applied m, applyMoveState now s u mv m pos2)) := by
  by_cases hgo : O.isGameOver s.game = true
  · left
    rw [submitMove_eq_gameOver O now s u mv hgo]
    exact ⟨rfl, rfl⟩
  · replace hgo : O.isGameOver s.game = false := by
      simpa using hgo
    by_cases hor : (s.whiteTeam.contains u || s.blackTeam.contains u) = true
    · by_cases hcan : canMakeMove now s = true
      · by_cases hteam : (if O.turn s.game == Color.white then s.whiteTeam
          else s.blackTeam).contains u = true
        · rcases hmv : O.move s.game mv with _ | ⟨m, pos2⟩
          · left
            rw [submitMove_eq_illegal O now s u mv hgo hor hcan hteam hmv]
            exact ⟨rfl, rfl⟩
          · right
            exact ⟨m, pos2, rfl,
              submitMove_eq_applied O now s u mv m pos2 hgo hor hcan hteam hmv⟩
        · replace hteam : (if O.turn s.game == Color.white then s.whiteTeam
            else s.blackTeam).contains u = false := by
            simpa using hteam
          left
          rw [submitMove_eq_wrongTeam O now s u mv hgo hor hcan hteam]
          exact ⟨rfl, rfl⟩
      · replace hcan : canMakeMove now s = false := by
          simpa using hcan
        left
        rw [submitMove_eq_pacing O now s u mv hgo hor hcan]
        exact ⟨rfl, rfl⟩
    · replace hor : (s.whiteTeam.contains u || s.blackTeam.contains u) = false := by
        simpa using hor
      rcases Bool.or_eq_false_iff.mp hor with ⟨hw, hb⟩
      left
      rw [submitMove_eq_notOnTeam O now s u mv hgo hw hb]
      exact ⟨rfl, rfl⟩

theorem submitMoveText_eq_gameOver {Pos : Type} (O : Oracle Pos) (now : ℤ)
    (s : GameSession Pos) (u mv : String)
    (hgo : O.isGameOver s.game = true) :
    submitMoveText O now s u mv = (.sessionTerminal, s) := by
  simp [submitMoveText, hgo]

theorem submitMoveText_eq_notOnTeam {Pos : Type} (O : Oracle Pos) (now : ℤ)
    (s : GameSession Pos) (u mv : String)
    (hgo : O.isGameOver s.game = false)
    (hw : s.whiteTeam.contains u = false)
    (hb : s.blackTeam.contains u = false) :
    submitMoveText O now s u mv = (.notOnAnyTeam, s) := by
  have hw' : u ∉ s.whiteTeam := by simpa using hw
  have hb' : u ∉ s.blackTeam := by simpa using hb
  simp [submitMoveText, hgo, hw', hb']

theorem submitMoveText_eq_wrongTeam {Pos : Type} (O : Oracle Pos) (now : ℤ)
    (s : GameSession Pos) (u mv : String)
    (hgo : O.isGameOver s.game = false)
    (hor : (s.whiteTeam.contains u || s.blackTeam.contains u) = true)
    (hteam : (if O.turn s.game == Color.white then s.whiteTeam
      else s.blackTeam).contains u = false) :
    submitMoveText O now s u mv = (.wrongTeam, s) := by
  have hor' : u ∈ s.whiteTeam ∨ u ∈ s.blackTeam := by simpa using hor
  cases hturn : O.turn s.game <;> rw [hturn] at hteam <;> simp at hteam <;>
    simp [submitMoveText, hgo, hturn, hteam] <;> tauto

theorem submitMoveText_eq_illegal {Pos : Type} (O : Oracle Pos) (now : ℤ)
    (s : GameSession Pos) (u mv : String)
    (hgo : O.isGameOver s.game = false)
    (hor : (s.whiteTeam.contains u || s.blackTeam.contains u) = true)
    (hteam : (if O.turn s.game == Color.white then s.whiteTeam
      else s.blackTeam).contains u = true)
    (hmv : O.move s.game mv = none) :
    submitMoveText O now s u mv = (.illegalMove, s) := by
  have hor' : u ∈ s.whiteTeam ∨ u ∈ s.blackTeam := by simpa using hor
  cases hturn : O.turn s.game <;> rw [hturn] at hteam <;> simp at hteam <;>
    simp [submitMoveText, hgo, hturn, hteam, hmv] <;> tauto

theorem submitMoveText_eq_applied {Pos : Type} (O : Oracle Pos) (now : ℤ)
    (s : GameSession Pos) (u mv : String) (m : MoveApplied) (pos2 : Pos)
    (hgo : O.isGameOver s.game = false)
    (hor : (s.whiteTeam.contains u || s.blackTeam.contains u) = true)
    (hteam : (if O.turn s.game == Color.white then s.whiteTeam
      else s.blackTeam).contains u = true)
    (hmv : O.move s.game mv = some (m, pos2)) :
    submitMoveText O now s u mv =
      (.applied m, applyMoveTextState now s u mv m pos2) := by
  have hor' : u ∈ s.whiteTeam ∨ u ∈ s.blackTeam := by simpa using hor
  cases hturn : O.turn s.game <;> rw [hturn] at hteam <;> simp at hteam <;>
    simp [submitMoveText, hgo, hturn, hteam, hmv] <;> tauto

theorem submitMoveText_char {Pos : Type} (O : Oracle Pos) (now : ℤ)
    (s : GameSession Pos) (u mv : String) :
    ((submitMoveText O now s u mv).1.isApplied = false ∧
      (submitMoveText O now s u mv).2 = s) ∨
    (∃ m pos2, O.move s.game mv = some (m, pos2) ∧
      submitMoveText O now s u mv =
        (.applied m, applyMoveTextState now s u mv m pos2)) := by
  by_cases hgo : O.isGameOver s.game = true
  · left
    rw [submitMoveText_eq_gameOver O now s u mv hgo]
    exact ⟨rfl, rfl⟩
  · replace hgo : O.isGameOver s.game = false := by
      simpa using hgo
    by_cases hor : (s.whiteTeam.contains u || s.blackTeam.contains u) = true
    · by_cases hteam : (if O.turn s.game == Color.white then s.whiteTeam
        else s.blackTeam).contains u = true
      · rcases hmv : O.move s.game mv with _ | ⟨m, pos2⟩
        · left
          rw [submitMoveText_eq_illegal O now s u mv hgo hor hteam hmv]
          exact ⟨rfl, rfl⟩
        · right
          exact ⟨m, pos2, rfl,
            submitMoveText_eq_applied O now s u mv m pos2 hgo hor hteam hmv⟩
      · replace hteam : (if O.turn s.game == Color.white then s.whiteTeam
            else s.blackTeam).contains u = false := by
          simpa using hteam
        left
        rw [submitMoveText_eq_wrongTeam O now s u mv hgo hor hteam]
        exact ⟨rfl, rfl⟩
    · replace hor : (s.whiteTeam.contains u || s.blackTeam.contains u) = false := by
        simpa using hor
      rcases Bool.or_eq_false_iff.mp hor with ⟨hw, hb⟩
      left
      rw [submitMoveText_eq_notOnTeam O now s u mv hgo hw hb]
      exact ⟨rfl, rfl⟩

theorem addPlayer_whiteTeam {Pos : Type} (s : GameSession Pos) (u : String) :
    (addPlayer s u).whiteTeam = s.whiteTeam := by
  unfold addPlayer
  split <;> rfl

theorem addPlayer_blackTeam {Pos : Type} (s : GameSession Pos) (u : String) :
    (addPlayer s u).blackTeam = s.blackTeam := by
  unfold addPlayer
  split <;> rfl

theorem joinWhite_whiteTeam {Pos : Type} (s : GameSession Pos) (u : String) :
    (joinWhite s u).whiteTeam =
      if s.whiteTeam.contains u then s.whiteTeam else s.whiteTeam ++ [u] := by
  unfold joinWhite
  rw [addPlayer_whiteTeam]
  dsimp only
  by_cases h : u ∈ s.whiteTeam <;> simp [h]

theorem joinWhite_blackTeam {Pos : Type} (s : GameSession Pos) (u : String) :
    (joinWhite s u).blackTeam = s.blackTeam.filter (fun p => p ≠ u) := by
  unfold joinWhite
  rw [addPlayer_blackTeam]
  dsimp only
  by_cases h : u ∈ s.whiteTeam <;> simp [h]

theorem joinBlack_whiteTeam {Pos : Type} (s : GameSession Pos) (u : String) :
    (joinBlack s u).whiteTeam = s.whiteTeam.filter (fun p => p ≠ u) := by
  unfold joinBlack
  rw [addPlayer_whiteTeam]

theorem joinBlack_blackTeam {Pos : Type} (s : GameSession Pos) (u : String) :
    (joinBlack s u).blackTeam = s.blackTeam ++ [u] := by
  unfold joinBlack
  rw [addPlayer_blackTeam]

theorem handleGameJoin_teams {Pos : Type} (s : GameSession Pos) (u : String)
    (c : Color) :
    handleGameJoin s u c = s ∨
    ((handleGameJoin s u c).whiteTeam = s.whiteTeam ++ [u] ∧
      (handleGameJoin s u c).blackTeam = s.blackTeam.filter (fun p => p ≠ u)) ∨
    ((handleGameJoin s u c).whiteTeam = s.whiteTeam.filter (fun p => p ≠ u) ∧
      (handleGameJoin s u c).blackTeam = s.blackTeam ++ [u]) := by
  unfold handleGameJoin
  split
  · exact Or.inl rfl
  · rename_i hnot
    have hor : (s.whiteTeam.contains u || s.blackTeam.contains u) = false := by
      simpa using hnot
    rcases Bool.or_eq_false_iff.mp hor with ⟨hw, hb⟩
    have hw' : u ∉ s.whiteTeam := by simpa using hw
    have hb' : u ∉ s.blackTeam := by simpa using hb
    cases c
    · right
      left
      rw [addPlayer_whiteTeam, addPlayer_blackTeam]
      dsimp only
      simp [hw']
    · right
      right
      rw [addPlayer_whiteTeam, addPlayer_blackTeam]
      dsimp only
      simp [hb']

theorem voteResign_teams {Pos : Type} (s : GameSession Pos) (u : String) :
    (voteResign s u).2.whiteTeam = s.whiteTeam ∧
    (voteResign s u).2.blackTeam = s.blackTeam ∧
    (voteResign s u).2.moveHistory = s.moveHistory ∧
    (voteResign s u).2.moveNumber = s.moveNumber := by
  refine ⟨?_, ?_, ?_, ?_⟩ <;>
    (unfold voteResign
     dsimp only
     repeat' split) <;>
    rfl

theorem mapGet_cons {α : Type} (p : GKey × α) (t : List (GKey × α)) (k : GKey) :
    mapGet (p :: t) k = if p.1 == k then some p.2 else mapGet t k := by
  cases h : (p.1 == k) <;> simp [mapGet, List.find?, h]

theorem mapHas_mapDelete {α : Type} (reg : List (GKey × α)) (k : GKey) :
    mapHas (mapDelete reg k) k = false := by
  unfold mapHas mapDelete
  induction reg with
  | nil => rfl
  | cons p t ih =>
    by_cases hp : p.1 = k
    · simpa [List.filter_cons, hp] using ih
    · have hp' : (p.1 == k) = false := by simpa using hp
      simpa [List.filter_cons, hp, mapGet_cons, hp'] using ih

theorem mapGet_mapSet {α : Type} (reg : List (GKey × α)) (k : GKey) (v : α) :
    mapGet (mapSet reg k v) k = some v := by
  unfold mapSet
  split
  · rename_i hhas
    induction reg with
    | nil => simp [mapHas, mapGet, List.find?] at hhas
    | cons p t ih =>
      by_cases hp : (p.1 == k) = true
      · have hpe : p.1 = k := by simpa using hp
        simp [List.map_cons, hpe, mapGet_cons]
      · have hp' : (p.1 == k) = false := by simpa using hp
        have hpe : ¬ p.1 = k := by simpa using hp'
        have hhas' : mapHas t k = true := by
          simpa [mapHas, mapGet_cons, hp'] using hhas
        simpa [List.map_cons, hpe, mapGet_cons] using ih hhas'
  · rename_i hhas
    induction reg with
    | nil => simp [mapGet, List.find?]
    | cons p t ih =>
      have hp' : (p.1 == k) = false := by
        cases h : (p.1 == k)
        · rfl
        · exact absurd (by simp [mapHas, mapGet_cons, h]) hhas
      have ht : ¬ mapHas t k = true := by
        intro h
        exact hhas (by simpa [mapHas, mapGet_cons, hp'] using h)
      simpa [List.cons_append, mapGet_cons, hp'] using ih ht

theorem deleteGame_ne {α : Type} (db : List (String × α)) (cid : String) :
    ∀ rec ∈ deleteGame db cid, rec.1 ≠ cid := by
  intro rec hrec
  unfold deleteGame at hrec
  have := List.mem_filter.mp hrec
  simpa using this.2

theorem ceil_max_zero_eq_zero_iff (a b : ℚ) :
    ⌈max 0 (b - a)⌉ = 0 ↔ b ≤ a := by
  constructor
  · intro h
    by_contra hab
    push_neg at hab
    have hpos : (0 : ℚ) < max 0 (b - a) := by
      rw [lt_max_iff]
      right
      linarith
    have := Int.ceil_pos.mpr hpos
    omega
  · intro h
    have : max 0 (b - a) = 0 := max_eq_left (by linarith)
    rw [this]
    exact Int.ceil_zero

theorem ceil_max_zero_comm (x : ℚ) : ⌈max 0 x⌉ = max 0 ⌈x⌉ := by
  rcases le_or_lt x 0 with h | h
  · rw [max_eq_left h, Int.ceil_zero, eq_comm, max_eq_left]
    exact Int.ceil_le.mpr (by exact_mod_cast h)
  · rw [max_eq_right h.le, eq_comm, max_eq_right]
    exact (Int.ceil_pos.mpr h).le

/-- C10: at any single instant, the two pacing helpers agree:
`canMakeMove` returns `true` exactly when `getRemainingDelay` returns
`0`, so pacing blocks a move precisely when a strictly positive
remaining delay is reported. -/
theorem canMakeMove_iff_no_remaining {Pos : Type} (now : ℤ)
    (s : GameSession Pos) :
    canMakeMove now s = true ↔ getRemainingDelay now s = 0 := by
  unfold canMakeMove getRemainingDelay
  cases hmd : s.moveDelay with
  | none => simp
  | some d =>
    cases hen : d.enabled with
    | false => simp [hen]
    | true =>
      by_cases hodd : s.moveNumber % 2 = 1
      · simp [hen, hodd]
      · have hodd' : (s.moveNumber % 2 == 1) = false := by
          simpa using hodd
        cases hret : s.roundEndTime with
        | none => simp [hen, hodd']
        | some ret =>
          simp only [hen, hodd', Bool.not_true, Bool.false_eq_true,
            if_false, ge_iff_le, decide_eq_true_eq]
          rw [ceil_max_zero_eq_zero_iff]

/-- C2: `canMakeMove` is `true` when pacing is disabled, when
`moveNumber` is odd (the second mover of a round is never blocked), or
when `moveNumber` is even with no recorded round end; otherwise it is
`true` iff `(now - roundEndTime)/1000 ≥ baseDelay + increment *
(floor(moveNumber/2) - 1)`. -/
theorem canMakeMove_spec {Pos : Type} (now ret : ℤ) (s : GameSession Pos)
    (d : MoveDelay) :
    (pacingDisabled s = true → canMakeMove now s = true) ∧
    (s.moveNumber % 2 = 1 → canMakeMove now s = true) ∧
    (s.moveNumber % 2 = 0 → s.roundEndTime = none → canMakeMove now s = true) ∧
    (s.moveDelay = some d → d.enabled = true → s.moveNumber % 2 = 0 →
      s.roundEndTime = some ret →
      (canMakeMove now s = true ↔
        ((now - ret : ℤ) : ℚ) / 1000 ≥
          d.baseDelay + d.increment * (((s.moveNumber / 2 : ℕ) : ℤ) - 1))) := by
  refine ⟨?_, ?_, ?_, ?_⟩
  · intro h
    unfold pacingDisabled at h
    unfold canMakeMove
    cases hmd : s.moveDelay with
    | none => rfl
    | some d' =>
      rw [hmd] at h
      simp only [Bool.not_eq_true'] at h
      simp [h]
  · intro h
    unfold canMakeMove
    cases hmd : s.moveDelay with
    | none => rfl
    | some d' =>
      cases hen : d'.enabled with
      | false => simp [hen]
      | true => simp [hen, h]
  · intro h hret
    unfold canMakeMove
    cases hmd : s.moveDelay with
    | none => rfl
    | some d' =>
      cases hen : d'.enabled with
      | false => simp [hen]
      | true => simp [hen, h, hret]
  · intro hmd hen hmod hret
    unfold canMakeMove
    rw [hmd, hret]
    simp only [hen, Bool.not_true, Bool.false_eq_true, if_false, hmod]
    simp [requiredDelay]

/-- C3: `getRemainingDelay` is never negative; in the governed case
(pacing enabled, even `moveNumber`, round end recorded) it equals the
ceiling of `requiredDelay - elapsed`, floored at zero; with the 900/900
configuration it reports 900 at `moveNumber = 2` and zero elapsed time,
and the required delay at `moveNumber = 4` is 1800 seconds. -/
theorem getRemainingDelay_spec {Pos : Type} (now ret : ℤ)
    (s : GameSession Pos) (d : MoveDelay) :
    0 ≤ getRemainingDelay now s ∧
    (s.moveDelay = some d → d.enabled = true → s.moveNumber % 2 = 0 →
      s.roundEndTime = some ret →
      getRemainingDelay now s =
        max 0 ⌈requiredDelay d s.moveNumber - ((now - ret : ℤ) : ℚ) / 1000⌉) ∧
    getRemainingDelay 0 pacedSession = 900 ∧
    requiredDelay delay900 4 = 1800 := by
  refine ⟨?_, ?_, ?_, ?_⟩
  · unfold getRemainingDelay
    cases hmd : s.moveDelay with
    | none => exact le_refl 0
    | some d' =>
      cases hen : d'.enabled with
      | false => simp [hen]
      | true =>
        simp only [hen, Bool.not_true, Bool.false_eq_true, if_false]
        cases hodd : s.moveNumber % 2 == 1 with
        | true => simp [hodd]
        | false =>
          simp only [hodd, Bool.false_eq_true, if_false]
          cases hret : s.roundEndTime with
          | none => exact le_refl 0
          | some r => exact Int.ceil_nonneg (le_max_left _ _)
  · intro hmd hen hmod hret
    unfold getRemainingDelay
    rw [hmd, hret]
    simp only [hen, Bool.not_true, Bool.false_eq_true, if_false, hmod,
      show ((0 : ℕ) == 1) = false from rfl]
    rw [ceil_max_zero_comm]
  · show getRemainingDelay 0 pacedSession = 900
    rw [show pacedSession =
      { pacedSession with moveDelay := some delay900 } from rfl]
    unfold getRemainingDelay
    norm_num [delay900, pacedSession, baseSession, initSessionCallback, requiredDelay]
  · unfold requiredDelay delay900
    norm_num

/-- Witness for C2 at concrete inputs: an odd `moveNumber` is always
allowed, and the governed case reduces to the delay formula. -/
theorem canMakeMove_spec_witness :
    canMakeMove 0 { pacedSession with moveNumber := 3 } = true ∧
    (canMakeMove 900000 pacedSession = true ↔
      ((900000 - 0 : ℤ) : ℚ) / 1000 ≥
        delay900.baseDelay + delay900.increment *
          (((pacedSession.moveNumber / 2 : ℕ) : ℤ) - 1)) :=
  ⟨(canMakeMove_spec 0 0 { pacedSession with moveNumber := 3 } delay900).2.1
      (by decide),
   (canMakeMove_spec 900000 0 pacedSession delay900).2.2.2 rfl rfl (by decide) rfl⟩

/-- Witness for C3 at concrete inputs: non-negativity and the governed
formula at `moveNumber = 2`, five milliseconds after the round end. -/
theorem getRemainingDelay_spec_witness :
    0 ≤ getRemainingDelay 5 pacedSession ∧
    getRemainingDelay 5 pacedSession =
      max 0 ⌈requiredDelay delay900 pacedSession.moveNumber -
        ((5 - 0 : ℤ) : ℚ) / 1000⌉ :=
  ⟨(getRemainingDelay_spec 5 0 pacedSession delay900).1,
   (getRemainingDelay_spec 5 0 pacedSession delay900).2.1 rfl rfl (by decide) rfl⟩

/-- C1: the `'move_'` submission runs its validation checks in this
exact order — game-over, team membership, pacing, turn ownership,
legality — returns the first failure encountered with the session
untouched, and applies the move only after all five checks pass. -/
theorem submitMove_check_order {Pos : Type} (O : Oracle Pos) (now : ℤ)
    (s : GameSession Pos) (u mv : String) :
    (O.isGameOver s.game = true →
      submitMove O now s u mv = (.sessionTerminal, s)) ∧
    (O.isGameOver s.game = false → u ∉ s.whiteTeam → u ∉ s.blackTeam →
      submitMove O now s u mv = (.notOnAnyTeam, s)) ∧
    (O.isGameOver s.game = false → (u ∈ s.whiteTeam ∨ u ∈ s.blackTeam) →
      canMakeMove now s = false →
      submitMove O now s u mv = (.pacingBlocked (getRemainingDelay now s), s)) ∧
    (O.isGameOver s.game = false → (u ∈ s.whiteTeam ∨ u ∈ s.blackTeam) →
      canMakeMove now s = true →
      u ∉ (if O.turn s.game = Color.white then s.whiteTeam else s.blackTeam) →
      submitMove O now s u mv = (.wrongTeam, s)) ∧
    (O.isGameOver s.game = false → (u ∈ s.whiteTeam ∨ u ∈ s.blackTeam) →
      canMakeMove now s = true →
      u ∈ (if O.turn s.game = Color.white then s.whiteTeam else s.blackTeam) →
      O.move s.game mv = none →
      submitMove O now s u mv = (.illegalMove, s)) ∧
    (∀ m pos2, O.isGameOver s.game = false →
      (u ∈ s.whiteTeam ∨ u ∈ s.blackTeam) →
      canMakeMove now s = true →
      u ∈ (if O.turn s.game = Color.white then s.whiteTeam else s.blackTeam) →
      O.move s.game mv = some (m, pos2) →
      submitMove O now s u mv = (.applied m, applyMoveState now s u mv m pos2)) := by
  refine ⟨?_, ?_, ?_, ?_, ?_, ?_⟩
  · intro hgo
    exact submitMove_eq_gameOver O now s u mv hgo
  · intro hgo hw hb
    exact submitMove_eq_notOnTeam O now s u mv hgo (by simpa using hw)
      (by simpa using hb)
  · intro hgo hmem hcan
    exact submitMove_eq_pacing O now s u mv hgo (by simpa using hmem) hcan
  · intro hgo hmem hcan hnm
    refine submitMove_eq_wrongTeam O now s u mv hgo (by simpa using hmem) hcan ?_
    cases hturn : O.turn s.game <;> rw [hturn] at hnm <;> simp at hnm <;>
      simp [hturn, hnm]
  · intro hgo hmem hcan htm hmv
    refine submitMove_eq_illegal O now s u mv hgo (by simpa using hmem) hcan ?_ hmv
    cases hturn : O.turn s.game <;> rw [hturn] at htm <;> simp at htm <;>
      simp [hturn, htm]
  · intro m pos2 hgo hmem hcan htm hmv
    refine submitMove_eq_applied O now s u mv m pos2 hgo (by simpa using hmem)
      hcan ?_ hmv
    cases hturn : O.turn s.game <;> rw [hturn] at htm <;> simp at htm <;>
      simp [hturn, htm]

/-- Witness for C1 at concrete inputs: each check fires at a session
exhibiting its condition, and a legal move by the right actor applies. -/
theorem submitMove_check_order_witness :
    submitMove oracleOver 0 duoSession "a" "e2e4" = (.sessionTerminal, duoSession) ∧
    submitMove oracleAccept 0 duoSession "z" "e2e4" = (.notOnAnyTeam, duoSession) ∧
    submitMove oracleAccept 0 duoSession "d" "e2e4" = (.wrongTeam, duoSession) ∧
    submitMove oracleReject 0 duoSession "a" "e2e4" = (.illegalMove, duoSession) ∧
    submitMove oracleAccept 0 duoSession "a" "e2e4" =
      (.applied mPawn, applyMoveState 0 duoSession "a" "e2e4" mPawn ()) :=
  ⟨(submitMove_check_order oracleOver 0 duoSession "a" "e2e4").1 rfl,
   (submitMove_check_order oracleAccept 0 duoSession "z" "e2e4").2.1 rfl
      (by decide) (by decide),
   (submitMove_check_order oracleAccept 0 duoSession "d" "e2e4").2.2.2.1 rfl
      (Or.inr (by decide)) rfl (by decide),
   (submitMove_check_order oracleReject 0 duoSession "a" "e2e4").2.2.2.2.1 rfl
      (Or.inl (by decide)) rfl (by decide) rfl,
   (submitMove_check_order oracleAccept 0 duoSession "a" "e2e4").2.2.2.2.2
      mPawn () rfl (Or.inl (by decide)) rfl (by decide) rfl⟩

/-- C9: a rejected move submission — via any of the validation failures,
on either the callback path or the `/move` command path — leaves the
move history, move number, captured-piece ledgers, round-end time and
position unchanged. -/
theorem rejected_move_preserves_session {Pos : Type} (O : Oracle Pos)
    (now : ℤ) (s : GameSession Pos) (u mv : String) :
    ((submitMove O now s u mv).1.isApplied = false →
      (submitMove O now s u mv).2.moveHistory = s.moveHistory ∧
      (submitMove O now s u mv).2.moveNumber = s.moveNumber ∧
      (submitMove O now s u mv).2.capturedWhite = s.capturedWhite ∧
      (submitMove O now s u mv).2.capturedBlack = s.capturedBlack ∧
      (submitMove O now s u mv).2.roundEndTime = s.roundEndTime ∧
      (submitMove O now s u mv).2.game = s.game) ∧
    ((submitMoveText O now s u mv).1.isApplied = false →
      (submitMoveText O now s u mv).2.moveHistory = s.moveHistory ∧
      (submitMoveText O now s u mv).2.moveNumber = s.moveNumber ∧
      (submitMoveText O now s u mv).2.capturedWhite = s.capturedWhite ∧
      (submitMoveText O now s u mv).2.capturedBlack = s.capturedBlack ∧
      (submitMoveText O now s u mv).2.roundEndTime = s.roundEndTime ∧
      (submitMoveText O now s u mv).2.game = s.game) := by
  constructor
  · intro h
    rcases submitMove_char O now s u mv with ⟨_, h2⟩ | ⟨m, pos2, _, heq⟩
    · rw [h2]
      exact ⟨rfl, rfl, rfl, rfl, rfl, rfl⟩
    · rw [heq] at h
      simp [MoveResult.isApplied] at h
  · intro h
    rcases submitMoveText_char O now s u mv with ⟨_, h2⟩ | ⟨m, pos2, _, heq⟩
    · rw [h2]
      exact ⟨rfl, rfl, rfl, rfl, rfl, rfl⟩
    · rw [heq] at h
      simp [MoveResult.isApplied] at h

/-- Witness for C9 at a concrete input: an illegal notation is rejected
and the session fields are unchanged. -/
theorem rejected_move_preserves_session_witness :
    (submitMove oracleReject 0 duoSession "a" "zz").1.isApplied = false ∧
    (submitMove oracleReject 0 duoSession "a" "zz").2.moveHistory =
      duoSession.moveHistory ∧
    (submitMove oracleReject 0 duoSession "a" "zz").2.moveNumber =
      duoSession.moveNumber :=
  ⟨rfl,
   ((rejected_move_preserves_session oracleReject 0 duoSession "a" "zz").1 rfl).1,
   ((rejected_move_preserves_session oracleReject 0 duoSession "a" "zz").1 rfl).2.1⟩

/-- C5: the two teams stay disjoint: every join operation removes the
actor from the other side before adding them, and moves and resign votes
do not touch the team lists. -/
theorem operations_preserve_disjoint_teams {Pos : Type} (O : Oracle Pos)
    (now : ℤ) (s : GameSession Pos) (u mv : String) (c : Color) :
    (disjointTeams s → disjointTeams (joinWhite s u)) ∧
    (disjointTeams s → disjointTeams (joinBlack s u)) ∧
    (disjointTeams s → disjointTeams (handleGameJoin s u c)) ∧
    u ∉ (joinWhite s u).blackTeam ∧
    u ∉ (joinBlack s u).whiteTeam ∧
    (disjointTeams s → disjointTeams (submitMove O now s u mv).2) ∧
    (disjointTeams s → disjointTeams (submitMoveText O now s u mv).2) ∧
    (disjointTeams s → disjointTeams (voteResign s u).2) := by
  refine ⟨?_, ?_, ?_, ?_, ?_, ?_, ?_, ?_⟩
  · intro hd x hxw hxb
    rw [joinWhite_whiteTeam] at hxw
    rw [joinWhite_blackTeam] at hxb
    obtain ⟨hxb1, hxb2⟩ := List.mem_filter.mp hxb
    have hne : x ≠ u := by simpa using hxb2
    split at hxw
    · exact hd x hxw hxb1
    · rcases List.mem_append.mp hxw with h | h
      · exact hd x h hxb1
      · exact hne (by simpa using h)
  · intro hd x hxw hxb
    rw [joinBlack_whiteTeam] at hxw
    rw [joinBlack_blackTeam] at hxb
    obtain ⟨hxw1, hxw2⟩ := List.mem_filter.mp hxw
    have hne : x ≠ u := by simpa using hxw2
    rcases List.mem_append.mp hxb with h | h
    · exact hd x hxw1 h
    · exact hne (by simpa using h)
  · intro hd
    rcases handleGameJoin_teams s u c with heq | ⟨hw, hb⟩ | ⟨hw, hb⟩
    · rw [heq]
      exact hd
    · intro x hxw hxb
      rw [hw] at hxw
      rw [hb] at hxb
      obtain ⟨hxb1, hxb2⟩ := List.mem_filter.mp hxb
      have hne : x ≠ u := by simpa using hxb2
      rcases List.mem_append.mp hxw with h | h
      · exact hd x h hxb1
      · exact hne (by simpa using h)
    · intro x hxw hxb
      rw [hw] at hxw
      rw [hb] at hxb
      obtain ⟨hxw1, hxw2⟩ := List.mem_filter.mp hxw
      have hne : x ≠ u := by simpa using hxw2
      rcases List.mem_append.mp hxb with h | h
      · exact hd x hxw1 h
      · exact hne (by simpa using h)
  · intro h
    rw [joinWhite_blackTeam] at h
    have h2 : u ≠ u := by simpa using (List.mem_filter.mp h).2
    exact h2 rfl
  · intro h
    rw [joinBlack_whiteTeam] at h
    have h2 : u ≠ u := by simpa using (List.mem_filter.mp h).2
    exact h2 rfl
  · intro hd
    rcases submitMove_char O now s u mv with ⟨_, h2⟩ | ⟨m, pos2, _, heq⟩
    · rw [h2]
      exact hd
    · rw [heq]
      obtain ⟨_, _, hw, hb⟩ := applyMoveState_fields now s u mv m pos2
      intro x hxw hxb
      dsimp only at hxw hxb
      rw [hw] at hxw
      rw [hb] at hxb
      exact hd x hxw hxb
  · intro hd
    rcases submitMoveText_char O now s u mv with ⟨_, h2⟩ | ⟨m, pos2, _, heq⟩
    · rw [h2]
      exact hd
    · rw [heq]
      obtain ⟨_, _, hw, hb⟩ := applyMoveTextState_fields now s u mv m pos2
      intro x hxw hxb
      dsimp only at hxw hxb
      rw [hw] at hxw
      rw [hb] at hxb
      exact hd x hxw hxb
  · intro hd x hxw hxb
    rw [(voteResign_teams s u).1] at hxw
    rw [(voteResign_teams s u).2.1] at hxb
    exact hd x hxw hxb

/-- Witness for C5 at a concrete input: joining black preserves the
disjointness of a session with alice on white and bob on black. -/
theorem operations_preserve_disjoint_teams_witness :
    disjointTeams (joinBlack pacedSession "alice") :=
  (operations_preserve_disjoint_teams oracleAccept 0 pacedSession "alice" "x"
    Color.white).2.1 (by unfold disjointTeams; decide)

/-- C7: a new-game request must not overwrite a live session.  The
`/newgame` command and `startGameInChannel` obey this (key checked and
stored under the same string key), but the `'start_newgame'` callback
checks existence under the *numeric* chat id while storing under a
string key (`String(chatId)` or `'default'`), so its guard never sees
the stored session and a second request replaces it, here wiping the
white team. -/
theorem startNewgame_overwrite_bug :
    newgameCommand () demoRegistry123 123 false = demoRegistry123 ∧
    newgameCommand () demoRegistry123 123 true = demoRegistry123 ∧
    startGameInChannel () demoRegistry123 123 = demoRegistry123 ∧
    mapHas demoRegistry (GKey.str "default") = true ∧
    mapHas demoRegistry (GKey.num 123) = false ∧
    (mapGet demoRegistry (GKey.str "default")).map (fun g => g.whiteTeam) =
      some ["alice"] ∧
    (mapGet (startNewgameCallback () demoRegistry 123 false)
        (GKey.str "default")).map (fun g => g.whiteTeam) = some [] := by
  refine ⟨rfl, rfl, rfl, rfl, rfl, rfl, rfl⟩

/-- C8: a resign vote by a team member who has not yet voted is appended
to that team's vote set, the majority is `ceil(teamSize/2)` at vote
time, and the session terminates — registry entry removed, channel
persistence record deleted — exactly when the vote count reaches the
majority; a repeated vote changes nothing, and a team of three stays
active after one vote and resigns on the second. -/
theorem voteResign_spec {Pos : Type} (s : GameSession Pos) (u : String) :
    (u ∈ s.whiteTeam → u ∉ s.resignVotesWhite →
      (voteResign s u).2.resignVotesWhite = s.resignVotesWhite ++ [u] ∧
      ((voteResign s u).1.isResigned = true ↔
        s.resignVotesWhite.length + 1 ≥ jsCeilHalf s.whiteTeam.length)) ∧
    (u ∉ s.whiteTeam → u ∈ s.blackTeam → u ∉ s.resignVotesBlack →
      (voteResign s u).2.resignVotesBlack = s.resignVotesBlack ++ [u] ∧
      ((voteResign s u).1.isResigned = true ↔
        s.resignVotesBlack.length + 1 ≥ jsCeilHalf s.blackTeam.length)) ∧
    (u ∈ s.whiteTeam → u ∈ s.resignVotesWhite →
      voteResign s u = (.alreadyVoted, s)) ∧
    (u ∉ s.whiteTeam → u ∈ s.blackTeam → u ∈ s.resignVotesBlack →
      voteResign s u = (.alreadyVoted, s)) ∧
    (u ∉ s.whiteTeam → u ∉ s.blackTeam → voteResign s u = (.notOnTeam, s)) ∧
    jsCeilHalf trioSession.whiteTeam.length = 2 ∧
    (voteResign trioSession "a").1.isResigned = false ∧
    (voteResign (voteResign trioSession "a").2 "b").1.isResigned = true ∧
    (∀ (reg : List (GKey × GameSession Pos)) (db : List (String × Unit))
        (k : GKey), mapGet reg k = some s →
      ((voteResign s u).1.isResigned = true →
        mapHas (resignCallback reg db k u).1 k = false ∧
        (∀ cid, s.channelId = some cid →
          ∀ rec ∈ (resignCallback reg db k u).2, rec.1 ≠ cid)) ∧
      ((voteResign s u).1.isResigned = false →
        mapGet (resignCallback reg db k u).1 k = some (voteResign s u).2)) := by
  refine ⟨?_, ?_, ?_, ?_, ?_, rfl, rfl, rfl, ?_⟩
  · intro hw hv
    have hw' : s.whiteTeam.contains u = true := by simpa using hw
    have hv' : s.resignVotesWhite.contains u = false := by simpa using hv
    constructor
    · unfold voteResign
      dsimp only
      simp only [hw', hv', Bool.false_eq_true, eq_self_iff_true, if_true, if_false]
      split <;> rfl
    · unfold voteResign
      dsimp only
      simp only [hw', hv', Bool.false_eq_true, eq_self_iff_true, if_true, if_false]
      split
      · rename_i hcond
        exact iff_of_true rfl (by simpa using hcond)
      · rename_i hcond
        exact iff_of_false (by simp [ResignOutcome.isResigned])
          (by simpa using hcond)
  · intro hnw hb hv
    have hnw' : s.whiteTeam.contains u = false := by simpa using hnw
    have hb' : s.blackTeam.contains u = true := by simpa using hb
    have hv' : s.resignVotesBlack.contains u = false := by simpa using hv
    constructor
    · unfold voteResign
      dsimp only
      simp only [hnw', hb', hv', Bool.false_eq_true, eq_self_iff_true,
        if_true, if_false]
      split <;> rfl
    · unfold voteResign
      dsimp only
      simp only [hnw', hb', hv', Bool.false_eq_true, eq_self_iff_true,
        if_true, if_false]
      split
      · rename_i hcond
        exact iff_of_true rfl (by simpa using hcond)
      · rename_i hcond
        exact iff_of_false (by simp [ResignOutcome.isResigned])
          (by simpa using hcond)
  · intro hw hv
    have hw' : s.whiteTeam.contains u = true := by simpa using hw
    have hv' : s.resignVotesWhite.contains u = true := by simpa using hv
    unfold voteResign
    simp only [hw', hv', eq_self_iff_true, if_true]
  · intro hnw hb hv
    have hnw' : s.whiteTeam.contains u = false := by simpa using hnw
    have hb' : s.blackTeam.contains u = true := by simpa using hb
    have hv' : s.resignVotesBlack.contains u = true := by simpa using hv
    unfold voteResign
    simp only [hnw', hb', hv', Bool.false_eq_true, eq_self_iff_true,
      if_true, if_false]
  · intro hnw hnb
    have hnw' : s.whiteTeam.contains u = false := by simpa using hnw
    have hnb' : s.blackTeam.contains u = false := by simpa using hnb
    unfold voteResign
    simp only [hnw', hnb', Bool.false_eq_true, if_false]
  · intro reg db k hget
    constructor
    · intro hres
      constructor
      · unfold resignCallback
        rw [hget]
        dsimp only
        simp only [hres, eq_self_iff_true, if_true]
        exact mapHas_mapDelete reg k
      · intro cid hcid rec hrec
        unfold resignCallback at hrec
        rw [hget] at hrec
        dsimp only at hrec
        simp only [hres, hcid, eq_self_iff_true, if_true] at hrec
        exact deleteGame_ne db cid rec hrec
    · intro hres
      unfold resignCallback
      rw [hget]
      dsimp only
      simp only [hres, Bool.false_eq_true, if_false]
      exact mapGet_mapSet reg k _

/-- Witness for C8 at a concrete input: the first vote on a
three-member white team is recorded and does not terminate the
session. -/
theorem voteResign_spec_witness :
    (voteResign trioSession "a").2.resignVotesWhite =
      trioSession.resignVotesWhite ++ ["a"] ∧
    ((voteResign trioSession "a").1.isResigned = true ↔
      trioSession.resignVotesWhite.length + 1 ≥
        jsCeilHalf trioSession.whiteTeam.length) :=
  (voteResign_spec trioSession "a").1 (by decide) (by decide)

end ChessBot
